import Mathlib

/-!
Verification of the vexpresso `DaftCollection` core
(`src/vexpresso/daft/collection.py`) against its natural-language
specification.

The external columnar engine (daft) is modelled relationally: a dataframe is
a list of column names plus positional rows.  Components of the repository
that are not present under `src/` (the `FilterHelper` predicate translator,
the `NumpyRetriever`, and the `transformation` wrapper from `utils`) are
modelled from the specification; each such definition says so in its doc
comment.  Everything else is translated directly from
`src/vexpresso/daft/collection.py`.
-/

namespace Vexpresso

/-- Cell values stored in a table column.  `vVec` holds an embedding vector
(machine floats are modelled as integers; only relative order of scores is
load-bearing), and `vRet` mirrors the python dict produced by the
`_retrieve` UDF (fields `retrieve_index` and `retrieve_score`). -/
inductive Val where
  | vInt (i : Int)
  | vStr (s : String)
  | vNull
  | vVec (v : List Int)
  | vRet (idx : Option Int) (score : Int)
deriving DecidableEq, Repr

/-- Python exception kinds raised by the modelled code paths. -/
inductive Err where
  | keyError (key : String)
  | typeError (msg : String)
  | valueError (msg : String)
  | notFoundError (msg : String)
  | validationError (msg : String)
  | indexError
deriving DecidableEq, Repr

/-- A vexpresso transformation object.  Python compares transformations by
object identity; `id` models that identity.  `wrapped` models the
`__vexpresso_transform` capability marker set by the `transformation`
wrapper from `vexpresso.utils`. -/
structure Transformation where
  id : Nat
  wrapped : Bool
deriving DecidableEq, Repr

/-- The semantics of transformation objects: an environment mapping a
transformation identity to its action on a list of argument columns.
Embedding functions receive the single content column and return one
`Val.vVec` per item. -/
def TEnv : Type := Nat → List (List Val) → List Val

/-- The embedding function registry: python dict from column name to
transformation (`DaftCollection.embedding_functions`). -/
abbrev Registry : Type := List (String × Transformation)

/-- Python dict assignment `d[c] = t`. -/
def regSet (reg : Registry) (c : String) (t : Transformation) : Registry :=
  (c, t) :: reg.filter (fun p => p.1 ≠ c)

/-- Python dict lookup `d[c]` as an option. -/
def regGet (reg : Registry) (c : String) : Option Transformation :=
  List.lookup c reg

/-- A daft dataframe, modelled relationally: ordered column names and
positional rows (row `r` holds the value of column `cols[j]` at index `j`). -/
structure Df where
  cols : List String
  rows : List (List Val)
deriving DecidableEq, Repr

/-- Position of a column name in a column list (first occurrence). -/
def colIdx? (cols : List String) (c : String) : Option Nat :=
  match cols with
  | [] => none
  | a :: rest => if a == c then some 0 else (colIdx? rest c).map (· + 1)

/-- Value of column `c` in a row (`Val.vNull` when absent), resolving the
column name positionally like the engine does. -/
def getValD (cols : List String) (row : List Val) (c : String) : Val :=
  match colIdx? cols c with
  | some i => row.getD i Val.vNull
  | none => Val.vNull

/-- `df.count_rows()`. -/
def Df.countRows (df : Df) : Nat := df.rows.length

/-- Read a whole column by name. -/
def Df.getCol? (df : Df) (c : String) : Option (List Val) :=
  if c ∈ df.cols then some (df.rows.map (fun r => getValD df.cols r c)) else none

/-- `df.with_column(name, values)`: overwrite the column when the name
exists, otherwise append it.  Rows are paired with values positionally. -/
def withColumnVals (df : Df) (name : String) (vals : List Val) : Df :=
  if name ∈ df.cols then
    match colIdx? df.cols name with
    | some i => { cols := df.cols, rows := (df.rows.zip vals).map (fun rv => rv.1.set i rv.2) }
    | none => df
  else
    { cols := df.cols ++ [name], rows := (df.rows.zip vals).map (fun rv => rv.1 ++ [rv.2]) }

/-- `df.exclude(names)`: drop the named columns, keeping the others in
order. -/
def excludeDf (df : Df) (names : List String) : Df :=
  { cols := df.cols.filter (fun c => ¬ c ∈ names),
    rows := df.rows.map (fun r => ((df.cols.zip r).filter (fun cv => ¬ cv.1 ∈ names)).map (fun cv => cv.2)) }

/-- Modelled from the spec: `FilterHelper.select` (`vexpresso/filter.py` is
not under `src/`).  Per section 4.3 and the error taxonomy, selection keeps
exactly the named columns and an unknown column name is an error. -/
def selectDf (df : Df) (names : List String) : Except Err Df :=
  match names.find? (fun n => ¬ df.cols.contains n) with
  | some n => .error (Err.notFoundError n)
  | none => .ok { cols := names, rows := df.rows.map (fun r => names.map (getValD df.cols r)) }

/-- `df.where(pred on column)`: keep rows whose value at `name` satisfies
`p`; surviving rows keep their relative order. -/
def whereValPred (df : Df) (name : String) (p : Val → Bool) : Df :=
  { cols := df.cols, rows := df.rows.filter (fun r => p (getValD df.cols r name)) }

/-- Numeric sort key of a cell (sorting in the modelled pipeline is only
ever applied to numeric score columns). -/
def intKey : Val → Int
  | .vInt n => n
  | _ => 0

/-- Sort key of a row under column `c`. -/
def rowKey (cols : List String) (c : String) (r : List Val) : Int :=
  intKey (getValD cols r c)

/-- `df.sort(col(c), desc=True)`: rows ordered by descending key. -/
def sortDfDesc (df : Df) (c : String) : Df :=
  { cols := df.cols,
    rows := List.insertionSort (fun r1 r2 => rowKey df.cols c r2 ≤ rowKey df.cols c r1) df.rows }

/-- `df.sort(col(c), desc=False)`. -/
def sortDfAsc (df : Df) (c : String) : Df :=
  { cols := df.cols,
    rows := List.insertionSort (fun r1 r2 => rowKey df.cols c r1 ≤ rowKey df.cols c r2) df.rows }

/-- The `df.sort` underlying `DaftCollection.sort`, with its `desc` flag. -/
def sortDf (df : Df) (c : String) (descB : Bool) : Df :=
  if descB then sortDfDesc df c else sortDfAsc df c

/-- `DaftCollection.add_column`: build a one-column frame from the values
and attach it under `name` (`daft.from_pydict` + `with_column`). -/
def addColumnDf (df : Df) (vals : List Val) (name : String) : Df :=
  withColumnVals df name vals

/-- The facade state carried by one `DaftCollection` object: its dataframe
and its embedding-function registry (the retriever is fixed to the
spec-modelled one). -/
structure St where
  df : Df
  reg : Registry
deriving DecidableEq, Repr

/-- Modelled from the spec: the structured filter conditions accepted by
`FilterHelper.filter` (section 4.3) — a mapping from column name to
operator/operand entries, all combined with logical AND. -/
abbrev Conds : Type := List (String × List (String × Val))

/-- Modelled from the spec: operator tokens supported by the filter
predicate translator (section 4.3). -/
def knownOps : List String := ["eq", "neq", "lt", "lte", "gt", "gte", "in", "contains"]

/-- Modelled from the spec: evaluate one operator against a cell value. -/
def evalCondB (v : Val) (op : String) (operand : Val) : Bool :=
  match op with
  | "eq" => v == operand
  | "neq" => ¬ v == operand
  | "lt" => match v, operand with
    | .vInt a, .vInt b => decide (a < b)
    | _, _ => false
  | "lte" => match v, operand with
    | .vInt a, .vInt b => decide (a ≤ b)
    | _, _ => false
  | "gt" => match v, operand with
    | .vInt a, .vInt b => decide (b < a)
    | _, _ => false
  | "gte" => match v, operand with
    | .vInt a, .vInt b => decide (b ≤ a)
    | _, _ => false
  | "in" => match v, operand with
    | .vInt a, .vVec l => decide (a ∈ l)
    | _, _ => false
  | "contains" => match v, operand with
    | .vVec l, .vInt a => decide (a ∈ l)
    | _, _ => false
  | _ => false

/-- Conjunction of all condition entries over one row. -/
def rowPredB (cols : List String) (conds : Conds) (r : List Val) : Bool :=
  conds.all (fun cf => cf.2.all (fun oc => evalCondB (getValD cols r cf.1) oc.1 oc.2))

/-- Modelled from the spec: validation of a condition set — an unknown
column or operator token is a `ValidationError`, never a silent
empty mask (section 4.3). -/
def condsCheck (cols : List String) (conds : Conds) : Option Err :=
  match conds.find? (fun cf => ¬ cols.contains cf.1) with
  | some cf => some (Err.validationError cf.1)
  | none =>
    match (conds.flatMap (fun cf => cf.2)).find? (fun oc => ¬ knownOps.contains oc.1) with
    | some oc => some (Err.validationError oc.1)
    | none => none

/-- Modelled from the spec: `FilterHelper.filter` — translate the structured
conditions into a row predicate and keep the surviving rows in order. -/
def filterDf (df : Df) (conds : Conds) : Except Err Df :=
  match condsCheck df.cols conds with
  | some e => .error e
  | none => .ok { cols := df.cols, rows := df.rows.filter (rowPredB df.cols conds) }

/-- One retrieval result of the retriever for a single query vector:
`indices` are the k highest-ranked candidate positions (descending
relevance), `scores` the per-candidate relevance scores (the `_retrieve`
UDF indexes `scores[i]` for every candidate row `i`). -/
structure RetrievalOutput where
  indices : List Nat
  scores : List Int
deriving DecidableEq, Repr

/-- Modelled from the spec: euclidean relevance score, a monotonically
decreasing function of distance (negated squared L2 distance),
so that higher score = more relevant (section 4.1). -/
def negSqDist (q e : List Int) : Int :=
  - ((q.zip e).foldl (fun acc p => acc + (p.1 - p.2) * (p.1 - p.2)) 0)

/-- Per-candidate relevance scores of one query vector. -/
def specScores (q : List Int) (embs : List (List Int)) : List Int :=
  embs.map (negSqDist q)

/-- Candidate ranking order: descending score, ties broken by ascending
candidate index (section 4.1). -/
def rankLeB (scores : List Int) (i j : Nat) : Bool :=
  decide (scores.getD j 0 < scores.getD i 0) ||
    (decide (scores.getD i 0 = scores.getD j 0) && decide (i ≤ j))

/-- Modelled from the spec: `NumpyRetriever.retrieve`
(`vexpresso/retriever.py` is not under `src/`) — for each query vector,
rank all candidates by relevance and keep the top `k` indices
(section 4.1). -/
def specRetrieve (qs : List (List Int)) (embs : List (List Int)) (k : Nat) :
    List RetrievalOutput :=
  qs.map (fun q =>
    let scores := specScores q embs
    { indices := (List.insertionSort (fun i j => rankLeB scores i j = true)
        (List.range embs.length)).take k,
      scores := scores })

/-- Decode an embedding column. -/
def decodeVec : Val → List Int
  | .vVec v => v
  | _ => []

/-- Decode a list of embedding cells. -/
def decodeVecs (l : List Val) : List (List Int) := l.map decodeVec

/-- The `_retrieve` daft UDF (lines 32-49): call the retriever on the whole
candidate column and keep only `[0]` — the output of the first query.  Each
candidate row gets its score; rows whose index appears in the top-k get
`retrieve_index = idx`, all others keep `None`.  An empty query batch makes
the `[0]` subscript fail. -/
def retrieveUdf (embCol : List (List Int)) (queryEmbeddings : List (List Int)) (k : Nat) :
    Except Err (List (Option Nat × Int)) :=
  match specRetrieve queryEmbeddings embCol k with
  | [] => .error Err.indexError
  | out :: _ =>
    let base := (List.range embCol.length).map (fun i => ((none : Option Nat), out.scores.getD i 0))
    .ok (out.indices.foldl (fun acc idx => acc.set idx (some idx, out.scores.getD idx 0)) base)

/-- Warning printed when an inline embedding function differs from the
registered one (lines 189 and 361). -/
def warnMsg : String := "embedding_fn may not be the same as whats in map!"

/-- The registry block at the top of `DaftCollection._retrieve`
(lines 184-191): resolve the transformation used for the query, possibly
registering the inline one when the column is unregistered.  Returns the
transformation the map holds afterwards (the code always reads
`self.embedding_functions[column_name]` at line 194), the updated registry,
and the printed warnings. -/
def dcRetrieveStep1 (reg : Registry) (columnName : String) (efn : Option Transformation) :
    Except Err (Transformation × Registry × List String) :=
  match efn with
  | none =>
    match regGet reg columnName with
    | none => .error (Err.keyError columnName)
    | some t => .ok (t, reg, [])
  | some g =>
    match regGet reg columnName with
    | some t => .ok (t, reg, if t ≠ g then [warnMsg] else [])
    | none => .ok (g, regSet reg columnName g, [])

/-- The column plumbing of `DaftCollection._retrieve` after the UDF ran
(lines 207-236): attach the UDF output, extract index and score columns,
drop unmatched rows (daft `where` on `retrieve_index != -1` drops the
`None` indices), and sort by descending score when requested. -/
def retrievePost (df : Df) (scoreCol : String) (sortB : Bool)
    (results : List (Option Nat × Int)) : Df :=
  let df1 := withColumnVals df "retrieve_output"
    (results.map (fun p => Val.vRet (p.1.map (fun i : Nat => (i : Int))) p.2))
  let df2 := withColumnVals df1 "retrieve_index"
    (results.map (fun p => match p.1 with
      | some i => Val.vInt i
      | none => Val.vNull))
  let df3 := withColumnVals df2 scoreCol (results.map (fun p => Val.vInt p.2))
  let df4 := excludeDf df3 ["retrieve_output"]
  let df5 := whereValPred df4 "retrieve_index"
    (fun v => match v with
      | Val.vInt n => decide (n ≠ -1)
      | _ => false)
  let df6 := excludeDf df5 ["retrieve_index"]
  if sortB then sortDfDesc df6 scoreCol else df6

/-- The remainder of `DaftCollection._retrieve` (lines 193-236): embed the
query when no explicit query embeddings were given, run the `_retrieve`
UDF over the embedding column, then post-process per `retrievePost`. -/
def resolveQueryEmb (env : TEnv) (tUsed : Transformation) (queryRaw : List Val)
    (qe : Option (List (List Int))) : List (List Int) :=
  match qe with
  | some q => q
  | none => decodeVecs (env tUsed.id [queryRaw])

def dcRetrieveRest (env : TEnv) (tUsed : Transformation) (df : Df)
    (columnName : String) (queryRaw : List Val) (qe : Option (List (List Int)))
    (k : Nat) (sortB : Bool) (scn : Option String) : Except Err Df :=
  let qEmb := resolveQueryEmb env tUsed queryRaw qe
  if columnName ∈ df.cols then
    let scoreCol := scn.getD (columnName ++ "_score")
    let embCol := decodeVecs ((df.getCol? columnName).getD [])
    match retrieveUdf embCol qEmb k with
    | .error e => .error e
    | .ok results => .ok (retrievePost df scoreCol sortB results)
  else
    .error (Err.valueError (columnName ++ " not found in daft df. Make sure to call embed on column " ++ columnName))

/-- `DaftCollection._retrieve` (lines 171-236), returning the dataframe
result together with the registry after the call (the python method mutates
`self.embedding_functions` in place) and the printed warnings. -/
def dcRetrieveCore (env : TEnv) (reg : Registry) (df : Df) (columnName : String)
    (queryRaw : List Val) (qe : Option (List (List Int))) (k : Nat) (sortB : Bool)
    (efn : Option Transformation) (scn : Option String) :
    Except Err Df × Registry × List String :=
  match dcRetrieveStep1 reg columnName efn with
  | .error e => (.error e, reg, [])
  | .ok (tUsed, reg1, warns) =>
    (dcRetrieveRest env tUsed df columnName queryRaw qe k sortB scn, reg1, warns)

/-- `DaftCollection.query` (lines 242-276): default `k` to `len(self)`,
retrieve (the raw query is wrapped into the singleton batch `[query]`),
then apply the filter conditions, when given, to the retrieved table. -/
def dcQuery (env : TEnv) (st : St) (column : String) (queryRaw : Val)
    (qe : Option (List (List Int))) (fc : Option Conds) (k : Option Nat)
    (sortB : Bool) (efn : Option Transformation) (scn : Option String) :
    Except Err Df × Registry × List String :=
  let kk := k.getD st.df.countRows
  let out := dcRetrieveCore env st.reg st.df column [queryRaw] qe kk sortB efn scn
  match out.1 with
  | .error e => (.error e, out.2.1, out.2.2)
  | .ok d =>
    match fc with
    | none => (.ok d, out.2.1, out.2.2)
    | some conds =>
      match filterDf d conds with
      | .error e => (.error e, out.2.1, out.2.2)
      | .ok d2 => (.ok d2, out.2.1, out.2.2)

/-- Positional arguments of `DaftCollection.apply`: either a column
reference (a `DaftCollection` projected to one column — only its dataframe
matters here) or a plain value. -/
inductive ApplyArg where
  | colRef (d : Df)
  | scalar (v : Val)
deriving DecidableEq, Repr

/-- A resolved `apply` argument: the column name taken from
`arg.df.columns[0]`, or the plain value. -/
inductive ResArg where
  | nameArg (n : String)
  | valArg (v : Val)
deriving DecidableEq, Repr

/-- Error message of the `isinstance` check in `apply` (line 308). -/
def applyErrMsg : String := "first args in apply must be a DaftCollection! use collection[column_name]"

/-- Resolve one `apply` argument: a column reference contributes its first
column name (`_arg.df.columns[0]`, an IndexError on an empty frame). -/
def resolveApplyArg (a : ApplyArg) : Except Err ResArg :=
  match a with
  | .colRef d =>
    match d.cols with
    | [] => .error Err.indexError
    | c :: _ => .ok (.nameArg c)
  | .scalar v => .ok (.valArg v)

/-- Resolve all `apply` arguments in order. -/
def resolveAll : List ApplyArg → Except Err (List ResArg)
  | [] => .ok []
  | a :: rest =>
    match resolveApplyArg a with
    | .error e => .error e
    | .ok r =>
      match resolveAll rest with
      | .error e => .error e
      | .ok rs => .ok (r :: rs)

/-- Materialize one resolved argument against the dataframe of the
receiving collection: a name argument reads that column (an unresolvable column
reference is an engine resolution error), a plain value is broadcast. -/
def argColumn (df : Df) (ra : ResArg) : Except Err (List Val) :=
  match ra with
  | .nameArg c =>
    match df.getCol? c with
    | some colv => .ok colv
    | none => .error (Err.notFoundError c)
  | .valArg v => .ok (List.replicate df.countRows v)

/-- Materialize all resolved arguments. -/
def argColumns (df : Df) : List ResArg → Except Err (List (List Val))
  | [] => .ok []
  | ra :: rest =>
    match argColumn df ra with
    | .error e => .error e
    | .ok c =>
      match argColumns df rest with
      | .error e => .error e
      | .ok cs => .ok (c :: cs)

/-- Modelled from the spec: the `transformation` wrapper from
`vexpresso.utils` tags a raw callable with the capability marker so it is
not re-wrapped (section 4.2); the behaviour is unchanged. -/
def wrapT (t : Transformation) : Transformation :=
  { id := t.id, wrapped := true }

/-- `DaftCollection.apply` (lines 300-332): wrap the transformation when it
lacks the marker, require the first positional argument to be a collection,
resolve column references to their first column name, default `to` to
`tranformed_` + the name of the first argument, and attach the derived column. -/
def dcApply (env : TEnv) (st : St) (fn : Transformation) (args : List ApplyArg)
    (to2 : Option String) : Except Err Df :=
  let fn2 := if fn.wrapped then fn else wrapT fn
  match args with
  | [] => .error Err.indexError
  | a0 :: rest =>
    match a0 with
    | .scalar _ => .error (Err.typeError applyErrMsg)
    | .colRef _ =>
      match resolveAll (a0 :: rest) with
      | .error e => .error e
      | .ok ras =>
        let firstName := match ras with
          | .nameArg c :: _ => c
          | _ => ""
        let toName := to2.getD ("tranformed_" ++ firstName)
        match argColumns st.df ras with
        | .error e => .error e
        | .ok argcols => .ok (withColumnVals st.df toName (env fn2.id argcols))

/-- The registry block of `DaftCollection.embed` (lines 356-365): keyed by
the destination column `to`; a differing inline function warns and, with
the update flag (default), replaces the entry; an unregistered `to` with no
inline function is a lookup failure. -/
def embStep (reg : Registry) (toName : String) (efn : Option Transformation) (upd : Bool) :
    Except Err (Registry × List String) :=
  match efn with
  | none =>
    match regGet reg toName with
    | none => .error (Err.keyError toName)
    | some _ => .ok (reg, [])
  | some g =>
    match regGet reg toName with
    | some t => .ok (if upd then regSet reg toName g else reg, if t ≠ g then [warnMsg] else [])
    | none => .ok (regSet reg toName g, [])

/-- `DaftCollection.embed` (lines 334-377): default `to` to
`embeddings_` + column name, add the content as a new column when given,
resolve/update the registry entry for `to`, wrap it when unmarked, then
apply it — note the argument list is built from `self[column_name]`
(line 370), i.e. a selection on the original collection, not on the
content-augmented one.  Returns the result, the registry after the call,
and the printed warnings. -/
def dcEmbed (env : TEnv) (st : St) (columnName : String) (content : Option (List Val))
    (efn : Option Transformation) (upd : Bool) (to2 : Option String) :
    Except Err Df × Registry × List String :=
  let toName := to2.getD ("embeddings_" ++ columnName)
  let collDf := match content with
    | some c => addColumnDf st.df c columnName
    | none => st.df
  match embStep st.reg toName efn upd with
  | .error e => (.error e, st.reg, [])
  | .ok (reg1, warns) =>
    let reg2 := match regGet reg1 toName with
      | some t => if t.wrapped then reg1 else regSet reg1 toName (wrapT t)
      | none => reg1
    match selectDf st.df [columnName] with
    | .error e => (.error e, reg2, warns)
    | .ok selD =>
      match regGet reg2 toName with
      | none => (.error (Err.keyError toName), reg2, warns)
      | some tUse =>
        (dcApply env { df := collDf, reg := reg2 } tUse [ApplyArg.colRef selD] (some toName), reg2, warns)

/-- Length of the first data column: the `indices` UDF is applied to
`col(self.column_names[0])`, so this is the `N` of the index sequence. -/
def firstLen (data : List (String × List Val)) : Nat :=
  match data with
  | [] => 0
  | c :: _ => c.2.length

/-- `DaftCollection.__init__` from raw column data (lines 76-80): build the
frame from the data mapping and attach `vexpresso_index` as
`indices(col(column_names[0]))`, i.e. `0..N-1` in input order where `N` is
the length of the first column (the `indices` UDF at lines 20-22 returns
`list(range(len(column)))`). -/
def constructDf (data : List (String × List Val)) : Df :=
  let cols := data.map (fun cv => cv.1)
  let n := firstLen data
  let rows := (List.range n).map (fun i => data.map (fun cv => cv.2.getD i Val.vNull))
  withColumnVals { cols := cols, rows := rows } "vexpresso_index"
    ((List.range n).map (fun i : Nat => Val.vInt i))

/-- A transformation step of the row-identity claim: filter, select or
sort. -/
inductive ChainOp where
  | chFilter (fc : Conds)
  | chSelect (names : List String)
  | chSort (column : String) (descB : Bool)
deriving DecidableEq, Repr

/-- Run one chain step. -/
def runStep (op : ChainOp) (df : Df) : Except Err Df :=
  match op with
  | .chFilter fc => filterDf df fc
  | .chSelect names => selectDf df names
  | .chSort c d => .ok (sortDf df c d)

/-- Run a chain of filter/select/sort transformations. -/
def runChain : List ChainOp → Df → Except Err Df
  | [], df => .ok df
  | op :: rest, df =>
    match runStep op df with
    | .error e => .error e
    | .ok d => runChain rest d

/-- Every row of `d` is a projection (over the columns of `d`) of some row of
`base`: the invariant preserved by filter/select/sort. -/
def RowsFrom (base d : Df) : Prop :=
  (∀ c ∈ d.cols, c ∈ base.cols) ∧
    ∀ r ∈ d.rows, ∃ br ∈ base.rows, ∀ c ∈ d.cols, getValD d.cols r c = getValD base.cols br c

/-- The methods of claim C3 as data, so the effect on the receiving facade
object can be quantified over. -/
inductive Op where
  | selectOp (names : List String)
  | excludeOp (names : List String)
  | filterOp (fc : Conds)
  | sortOp (column : String) (descB : Bool)
  | applyOp (fn : Transformation) (args : List ApplyArg) (to2 : Option String)
  | embedOp (columnName : String) (content : Option (List Val)) (efn : Option Transformation) (upd : Bool) (to2 : Option String)
  | queryOp (column : String) (queryRaw : Val) (qe : Option (List (List Int))) (fc : Option Conds) (k : Option Nat) (sortB : Bool) (efn : Option Transformation) (scn : Option String)
  | setitemOp (name : String) (vals : List Val)
  | collectOp (inPlace : Bool)
deriving DecidableEq, Repr

/-- The state of the receiving `DaftCollection` object after each method
call, translated from the method bodies: the transformation methods build
and return a fresh collection (`from_df`) and never assign `self.df`;
`embed`, `query` and `_retrieve` mutate `self.embedding_functions` in
place; `__setitem__` (lines 88-89) assigns `self.df`; `collect` (lines
129-133) re-points `self.df` at its own materialization, whose table value
is unchanged. -/
def runSelf (env : TEnv) (op : Op) (st : St) : St :=
  match op with
  | .selectOp _ => st
  | .excludeOp _ => st
  | .filterOp _ => st
  | .sortOp _ _ => st
  | .applyOp _ _ _ => st
  | .embedOp c ct efn u t => { df := st.df, reg := (dcEmbed env st c ct efn u t).2.1 }
  | .queryOp c q qe fc k sb efn scn => { df := st.df, reg := (dcQuery env st c q qe fc k sb efn scn).2.1 }
  | .setitemOp name vals => { df := addColumnDf st.df vals name, reg := st.reg }
  | .collectOp _ => st

/-- Heap of registry objects, for reasoning about python reference
sharing: a collection holds a reference into the heap. -/
structure Store where
  regs : List Registry
deriving DecidableEq, Repr

/-- A `DaftCollection` as the python runtime sees it: a dataframe value and
a reference to its `embedding_functions` dict. -/
structure DCRef where
  df : Df
  regRef : Nat
deriving DecidableEq, Repr

/-- Dereference the registry of a collection. -/
def storeReg (s : Store) (i : Nat) : Registry :=
  s.regs.getD i []

/-- Overwrite a heap cell. -/
def storeSet (s : Store) (i : Nat) (r : Registry) : Store :=
  { regs := s.regs.set i r }

/-- `DaftCollection.from_df` (lines 106-111): the derived collection is
constructed with `embedding_functions=self.embedding_functions` — the same
dict object, so the reference is copied, not the dict. -/
def fromDfRef (c : DCRef) (df : Df) : DCRef :=
  { df := df, regRef := c.regRef }

/-- `DaftCollection.set_embedding_function` (lines 99-100): in-place dict
assignment through the registry reference of the collection. -/
def setEmbeddingFunctionRef (s : Store) (c : DCRef) (col : String) (t : Transformation) : Store :=
  storeSet s c.regRef (regSet (storeReg s c.regRef) col t)

/-- Rows of a dataframe are sorted by descending value of column `c`. -/
def ScoresDesc (d : Df) (c : String) : Prop :=
  List.Pairwise (fun r1 r2 => rowKey d.cols c r2 ≤ rowKey d.cols c r1) d.rows

instance instDecEqExcept {ε α : Type} [DecidableEq ε] [DecidableEq α] :
    DecidableEq (Except ε α) := fun a b => by
  cases a <;> cases b
  case error.error e f => exact decidable_of_iff (e = f) (by simp)
  case error.ok e x => exact isFalse (by simp)
  case ok.error x e => exact isFalse (by simp)
  case ok.ok x y => exact decidable_of_iff (x = y) (by simp)

/-- A transformation environment that embeds nothing (concrete instances
below never call it). -/
def env0 : TEnv := fun _ _ => []

/-- Concrete two-row table with an embedding column, used by the concrete
instances below: row 0 embeds to `[0]`, row 1 to `[10]`. -/
def twoRowDf : Df :=
  ⟨["emb", "vexpresso_index"], [[Val.vVec [0], Val.vInt 0], [Val.vVec [10], Val.vInt 1]]⟩

/-- A transformation with identity 0 (already wrapped). -/
def fT : Transformation := ⟨0, true⟩

/-- A distinct transformation with identity 1 (already wrapped). -/
def gT : Transformation := ⟨1, true⟩

/-- Collection state over `twoRowDf` whose registry maps `emb` to `fT`. -/
def twoRowSt : St := ⟨twoRowDf, [("emb", fT)]⟩

/-- Environment distinguishing the two transformations: identity 0 embeds
every query to `[0]`, identity 1 embeds it to `[10]`. -/
def twoFnEnv : TEnv := fun i _ => if i = 0 then [Val.vVec [0]] else [Val.vVec [10]]

/-- Collection state over `twoRowDf` whose registry maps `emb` to `gT`. -/
def twoRowStG : St := ⟨twoRowDf, [("emb", gT)]⟩

/-- Concrete state for the `embed`-with-content scenario: one column `a`,
registry holding an entry for the destination column `embeddings_b`. -/
def embedSt : St := ⟨⟨["a"], [[Val.vStr "x"]]⟩, [("embeddings_b", fT)]⟩

/-- Concrete three-row state for the query-filter scenario: metadata
column `n` distinguishes rows. -/
def filterSt : St :=
  ⟨⟨["emb", "n", "vexpresso_index"],
    [[Val.vVec [0], Val.vInt 0, Val.vInt 0],
     [Val.vVec [5], Val.vInt 1, Val.vInt 1],
     [Val.vVec [10], Val.vInt 0, Val.vInt 2]]⟩, [("emb", fT)]⟩

/-- Concrete one-row state with an empty registry. -/
def emptyRegSt : St := ⟨⟨["emb"], [[Val.vVec [0]]]⟩, []⟩

/-- Concrete heap with a single (empty) registry object. -/
def oneRegStore : Store := ⟨[[]]⟩

/-- Concrete collection referencing the single registry object. -/
def baseRef : DCRef := ⟨⟨["a"], []⟩, 0⟩

/-- Concrete raw column data for the row-identity instance. -/
def c2data : List (String × List Val) := [("a", [Val.vStr "x", Val.vStr "y"])]

/-- Concrete transformation chain for the row-identity instance. -/
def c2chain : List ChainOp := [ChainOp.chSort "a" true]

/-- Result of running `c2chain` over `constructDf c2data`. -/
def c2res : Df :=
  ⟨["a", "vexpresso_index"], [[Val.vStr "x", Val.vInt 0], [Val.vStr "y", Val.vInt 1]]⟩

/-- Result of the concrete filtered query over `filterSt` (query embedding
`[6]`, filter `n eq 0`, default sort): the two surviving rows in
descending score order. -/
def c6res : Df :=
  ⟨["emb", "n", "vexpresso_index", "emb_score"],
   [[Val.vVec [10], Val.vInt 0, Val.vInt 2, Val.vInt (-16)],
    [Val.vVec [0], Val.vInt 0, Val.vInt 0, Val.vInt (-36)]]⟩

/- ------------------------------------------------------------------ -/
/- Helper lemmas. -/

theorem colIdx?_append_self (cols : List String) (c : String) (h : ¬ c ∈ cols) :
    colIdx? (cols ++ [c]) c = some cols.length := by
  induction cols with
  | nil => simp [colIdx?]
  | cons a rest ih =>
    have ha : ¬ a = c := by
      intro hc
      exact h (by simp [hc])
    simp only [List.cons_append, colIdx?, beq_iff_eq, ha, if_false]
    simp only [List.append_eq]
    rw [ih (fun hm => h (List.mem_cons_of_mem _ hm))]
    simp

theorem getValD_append_last (cols : List String) (row : List Val) (c : String) (v : Val)
    (hlen : row.length = cols.length) (h : ¬ c ∈ cols) :
    getValD (cols ++ [c]) (row ++ [v]) c = v := by
  unfold getValD
  rw [colIdx?_append_self cols c h]
  have hv : (row ++ [v])[cols.length]? = some v := by
    rw [List.getElem?_append_right (by omega)]
    simp [hlen]
  simp [List.getD_eq_getElem?_getD, hv]

theorem colIdx?_mem (names : List String) (c : String) (h : c ∈ names) :
    ∃ j, colIdx? names c = some j ∧ j < names.length ∧ names.getD j "" = c := by
  induction names with
  | nil => cases h
  | cons a rest ih =>
    by_cases hac : a = c
    · exact ⟨0, by simp [colIdx?, hac], by simp, by simp [hac]⟩
    · have hmem : c ∈ rest := by
        cases h with
        | head => exact absurd rfl hac
        | tail _ hm => exact hm
      obtain ⟨j, hj, hlt, hv⟩ := ih hmem
      refine ⟨j + 1, ?_, by simpa using Nat.succ_lt_succ hlt, by simpa using hv⟩
      simp [colIdx?, hac, hj]

theorem getValD_map_self (f : String → Val) (names : List String) (c : String) (h : c ∈ names) :
    getValD names (names.map f) c = f c := by
  obtain ⟨j, hj, hlt, hv⟩ := colIdx?_mem names c h
  have hns : names[j] = c := by
    rwa [List.getD_eq_getElem?_getD, List.getElem?_eq_getElem hlt, Option.getD_some] at hv
  unfold getValD
  rw [hj]
  show (names.map f).getD j Val.vNull = f c
  rw [List.getD_eq_getElem?_getD, List.getElem?_map, List.getElem?_eq_getElem hlt]
  simp [hns]

theorem rowsFrom_refl (d : Df) : RowsFrom d d :=
  ⟨fun _ hc => hc, fun r hr => ⟨r, hr, fun _ _ => rfl⟩⟩

theorem rowsFrom_trans {a b c : Df} (h1 : RowsFrom a b) (h2 : RowsFrom b c) : RowsFrom a c := by
  refine ⟨fun x hx => h1.1 x (h2.1 x hx), fun r hr => ?_⟩
  obtain ⟨br, hbr, heq⟩ := h2.2 r hr
  obtain ⟨ar, har, heq2⟩ := h1.2 br hbr
  exact ⟨ar, har, fun x hx => (heq x hx).trans (heq2 x (h2.1 x hx))⟩

theorem rowsFrom_filterDf {d d2 : Df} {conds : Conds} (h : filterDf d conds = .ok d2) :
    RowsFrom d d2 := by
  unfold filterDf at h
  split at h
  · exact absurd h (by simp)
  · injection h with h
    subst h
    exact ⟨fun c hc => hc, fun r hr => ⟨r, List.mem_of_mem_filter hr, fun _ _ => rfl⟩⟩

theorem rowsFrom_selectDf {d d2 : Df} {names : List String} (h : selectDf d names = .ok d2) :
    RowsFrom d d2 := by
  unfold selectDf at h
  split at h
  · exact absurd h (by simp)
  · next hfind =>
    injection h with h
    subst h
    constructor
    · intro c hc
      have := List.find?_eq_none.mp hfind c hc
      simpa using this
    · intro r hr
      obtain ⟨br, hbr, rfl⟩ := List.mem_map.mp hr
      exact ⟨br, hbr, fun c hc => getValD_map_self _ names c hc⟩

theorem rowsFrom_sortDf (d : Df) (c : String) (b : Bool) : RowsFrom d (sortDf d c b) := by
  unfold sortDf sortDfDesc sortDfAsc
  split <;>
    exact ⟨fun x hx => hx, fun r hr => ⟨r, (List.mem_insertionSort _).mp hr, fun _ _ => rfl⟩⟩

theorem rowsFrom_runChain : ∀ (ops : List ChainOp) (d res : Df),
    runChain ops d = .ok res → RowsFrom d res
  | [], d, res, h => by
    injection h with h
    subst h
    exact rowsFrom_refl d
  | op :: rest, d, res, h => by
    unfold runChain at h
    cases hs : runStep op d with
    | error e =>
      rw [hs] at h
      exact absurd h (by simp)
    | ok mid =>
      rw [hs] at h
      have h1 : RowsFrom d mid := by
        cases op with
        | chFilter fc => exact rowsFrom_filterDf hs
        | chSelect names => exact rowsFrom_selectDf hs
        | chSort c b =>
          unfold runStep at hs
          injection hs with hs
          subst hs
          exact rowsFrom_sortDf d c b
      exact rowsFrom_trans h1 (rowsFrom_runChain rest mid res h)

theorem constructDf_rows (data : List (String × List Val))
    (h : ¬ "vexpresso_index" ∈ data.map (fun cv => cv.1)) :
    (constructDf data).cols = data.map (fun cv => cv.1) ++ ["vexpresso_index"] ∧
    (constructDf data).rows = (List.range (firstLen data)).map
      (fun i : Nat => data.map (fun cv => cv.2.getD i Val.vNull) ++ [Val.vInt i]) := by
  unfold constructDf withColumnVals
  simp only [if_neg h]
  refine ⟨trivial, ?_⟩
  simp only [List.zip_map']
  rw [List.map_map]
  rfl

theorem constructDf_index (data : List (String × List Val))
    (h : ¬ "vexpresso_index" ∈ data.map (fun cv => cv.1)) (i : Nat) (hi : i < firstLen data) :
    ∃ r, (constructDf data).rows[i]? = some r ∧
      getValD (constructDf data).cols r "vexpresso_index" = Val.vInt i := by
  obtain ⟨hc, hr⟩ := constructDf_rows data h
  refine ⟨data.map (fun cv => cv.2.getD i Val.vNull) ++ [Val.vInt (i : Int)], ?_, ?_⟩
  · rw [hr, List.getElem?_map, List.getElem?_range hi]
    rfl
  · rw [hc]
    exact getValD_append_last _ _ _ _ (by simp) h

theorem scoresDesc_sortDfDesc (d : Df) (c : String) : ScoresDesc (sortDfDesc d c) c := by
  unfold ScoresDesc sortDfDesc
  dsimp only
  haveI ht : IsTotal (List Val) (fun r1 r2 => rowKey d.cols c r2 ≤ rowKey d.cols c r1) :=
    ⟨fun a b => le_total _ _⟩
  haveI htr : IsTrans (List Val) (fun r1 r2 => rowKey d.cols c r2 ≤ rowKey d.cols c r1) :=
    ⟨fun _ _ _ hab hbc => le_trans hbc hab⟩
  exact List.sorted_insertionSort _ d.rows

theorem scoresDesc_filterDf {d r2 : Df} {c : String} {conds : Conds}
    (h : ScoresDesc d c) (hf : filterDf d conds = .ok r2) : ScoresDesc r2 c := by
  unfold filterDf at hf
  split at hf
  · exact absurd hf (by simp)
  · injection hf with hf
    subst hf
    exact List.Pairwise.filter _ h

theorem retrievePost_sorted (df : Df) (scoreCol : String)
    (results : List (Option Nat × Int)) :
    ScoresDesc (retrievePost df scoreCol true results) scoreCol := by
  unfold retrievePost
  simp only [if_true]
  exact scoresDesc_sortDfDesc _ _

theorem dcRetrieveRest_sorted (env : TEnv) (tUsed : Transformation) (df : Df)
    (columnName : String) (queryRaw : List Val) (qe : Option (List (List Int)))
    (k : Nat) (scn : Option String) (out : Df)
    (h : dcRetrieveRest env tUsed df columnName queryRaw qe k true scn = .ok out) :
    ScoresDesc out (scn.getD (columnName ++ "_score")) := by
  simp only [dcRetrieveRest] at h
  by_cases hc : columnName ∈ df.cols
  · rw [if_pos hc] at h
    rcases hud : retrieveUdf (decodeVecs ((df.getCol? columnName).getD []))
        (resolveQueryEmb env tUsed queryRaw qe) k with e | results
    · rw [hud] at h
      exact absurd h (by simp)
    · rw [hud] at h
      injection h with h
      subst h
      exact retrievePost_sorted _ _ _
  · rw [if_neg hc] at h
    exact absurd h (by simp)

theorem regGet_regSet_self (reg : Registry) (c : String) (t : Transformation) :
    regGet (regSet reg c t) c = some t := by
  simp [regGet, regSet, List.lookup_cons]

/- ------------------------------------------------------------------ -/
/- Claim theorems. -/

/-- C1: the claim says a batched query (Q query vectors) produces Q
QueryResults, one per query vector.  The code disagrees: the `_retrieve`
UDF keeps only `retriever.retrieve(...)[0]`, so on a two-row collection a
query with the two query embeddings `[0]` and `[10]` returns exactly what
the single-query `[0]` call returns, and not what the second query vector
`[10]` would produce — the second query is discarded and only one result
table exists. -/
theorem c1_batched_query_collapses :
    dcQuery env0 twoRowSt "emb" Val.vNull (some [[0], [10]]) none (some 1) true none none
      = dcQuery env0 twoRowSt "emb" Val.vNull (some [[0]]) none (some 1) true none none
    ∧ dcQuery env0 twoRowSt "emb" Val.vNull (some [[0], [10]]) none (some 1) true none none
      ≠ dcQuery env0 twoRowSt "emb" Val.vNull (some [[10]]) none (some 1) true none none := by
  decide

/-- C2: at construction the `vexpresso_index` column holds `0..N-1` in
input order (`N` the length of the first column), and after any successful
chain of filter/select/sort transformations every surviving row is the
projection of a specific construction row `br` at position `i` — the row
agrees with `br` on every retained column — and its `vexpresso_index`
value is exactly `Val.vInt i`, the value that very row was assigned at
construction. -/
theorem c2_row_index_stable (data : List (String × List Val)) (chain : List ChainOp) (res : Df)
    (hvi : ¬ "vexpresso_index" ∈ data.map (fun cv => cv.1))
    (hrun : runChain chain (constructDf data) = .ok res) :
    ((constructDf data).rows.length = firstLen data ∧
      ∀ i, i < firstLen data → ∃ r, (constructDf data).rows[i]? = some r ∧
        getValD (constructDf data).cols r "vexpresso_index" = Val.vInt i) ∧
    ("vexpresso_index" ∈ res.cols →
      ∀ r ∈ res.rows, ∃ (i : Nat) (br : List Val), (constructDf data).rows[i]? = some br ∧
        (∀ c ∈ res.cols, getValD res.cols r c = getValD (constructDf data).cols br c) ∧
        getValD res.cols r "vexpresso_index" = Val.vInt i) := by
  refine ⟨⟨?_, fun i hi => constructDf_index data hvi i hi⟩, ?_⟩
  · rw [(constructDf_rows data hvi).2]
    simp
  · intro hmem r hr
    obtain ⟨br, hbr, heq⟩ := (rowsFrom_runChain chain _ res hrun).2 r hr
    obtain ⟨hc, hrows⟩ := constructDf_rows data hvi
    rw [hrows] at hbr
    obtain ⟨i, hir, hbreq⟩ := List.mem_map.mp hbr
    have hilt : i < firstLen data := List.mem_range.mp hir
    refine ⟨i, br, ?_, heq, ?_⟩
    · rw [hrows, List.getElem?_map, List.getElem?_range hilt, Option.map_some']
      rw [hbreq]
    · rw [heq _ hmem, ← hbreq, hc]
      exact getValD_append_last _ _ _ _ (by simp) hvi

theorem c2_witness :
    ((constructDf c2data).rows.length = firstLen c2data ∧
      ∀ i, i < firstLen c2data → ∃ r, (constructDf c2data).rows[i]? = some r ∧
        getValD (constructDf c2data).cols r "vexpresso_index" = Val.vInt i) ∧
    ("vexpresso_index" ∈ c2res.cols →
      ∀ r ∈ c2res.rows, ∃ (i : Nat) (br : List Val), (constructDf c2data).rows[i]? = some br ∧
        (∀ c ∈ c2res.cols, getValD c2res.cols r c = getValD (constructDf c2data).cols br c) ∧
        getValD c2res.cols r "vexpresso_index" = Val.vInt i) :=
  c2_row_index_stable c2data c2chain c2res (by decide) (by decide)

/-- C3 (amended): every transformation method of the claim (select,
exclude, filter, sort, apply, embed, query) returns a fresh collection and
leaves the table of the receiver unchanged, and in-place `collect` leaves the
table value unchanged as well — but `__setitem__` also replaces the
receiver table, so in-place collect is not the only such operation. -/
theorem c3_transformations_leave_receiver_table (env : TEnv) (st : St) (op : Op)
    (h : ∀ name vals, op ≠ Op.setitemOp name vals) :
    (runSelf env op st).df = st.df := by
  cases op with
  | setitemOp name vals => exact absurd rfl (h name vals)
  | selectOp names => rfl
  | excludeOp names => rfl
  | filterOp fc => rfl
  | sortOp c b => rfl
  | applyOp f a t => rfl
  | embedOp c ct efn u t => rfl
  | queryOp c q qe fc k sb efn scn => rfl
  | collectOp b => rfl

theorem c3_witness : (runSelf env0 (Op.selectOp ["emb"]) twoRowSt).df = twoRowSt.df :=
  c3_transformations_leave_receiver_table env0 twoRowSt (Op.selectOp ["emb"])
    (fun _ _ h => nomatch h)

/-- C3 counterexample: `__setitem__` (`self.df = self.add_column(...).df`,
lines 88-89) replaces the table of the receiver although it is not the in-place
materialization `collect`, refuting the claim that in-place collect is the
only operation replacing the internal table of the same facade object. -/
theorem c3_counterexample :
    (runSelf env0 (Op.setitemOp "b" [Val.vInt 2, Val.vInt 3]) twoRowSt).df ≠ twoRowSt.df
    ∧ Op.setitemOp "b" [Val.vInt 2, Val.vInt 3] ≠ Op.collectOp true := by
  decide

/-- C4: a query with no registered embedding function for the column, no
inline function and no explicit query embeddings fails with the registry
lookup error naming the column (`self.embedding_functions[column_name]`,
line 185), and an embed with no registry entry for the destination column
and no inline function fails with the lookup error naming that column
(line 357); the ConfigurationError of the spec is this KeyError. -/
theorem c4_missing_embedding_fn_errors :
    (∀ env st col q fc k sortB scn, regGet st.reg col = none →
      dcQuery env st col q none fc k sortB none scn
        = (.error (Err.keyError col), st.reg, [])) ∧
    (∀ env st colN content upd to2, regGet st.reg (to2.getD ("embeddings_" ++ colN)) = none →
      (dcEmbed env st colN content none upd to2).1
        = .error (Err.keyError (to2.getD ("embeddings_" ++ colN)))) := by
  constructor
  · intro env st col q fc k sortB scn h
    simp [dcQuery, dcRetrieveCore, dcRetrieveStep1, h]
  · intro env st colN content upd to2 h
    simp [dcEmbed, embStep, h]

theorem c4_witness :
    dcQuery env0 emptyRegSt "emb" Val.vNull none none none true none none
      = (.error (Err.keyError "emb"), emptyRegSt.reg, []) ∧
    (dcEmbed env0 emptyRegSt "a" none none true none).1
      = .error (Err.keyError "embeddings_a") :=
  ⟨c4_missing_embedding_fn_errors.1 env0 emptyRegSt "emb" Val.vNull none none true none rfl,
   c4_missing_embedding_fn_errors.2 env0 emptyRegSt "a" none true none rfl⟩

/-- C5: when `k` is unspecified, `query` runs with `k = len(self)` (the
number of candidate rows, line 257-258), and at `k = N` the spec-modelled
retriever produces a full ranking: its index list is a permutation of all
`N` candidate positions. -/
theorem c5_k_defaults_to_full_ranking :
    (∀ env st col q qe fc sortB efn scn,
      dcQuery env st col q qe fc none sortB efn scn
        = dcQuery env st col q qe fc (some st.df.countRows) sortB efn scn) ∧
    (∀ qs embs out, out ∈ specRetrieve qs embs embs.length →
      out.indices.Perm (List.range embs.length)) := by
  constructor
  · intro env st col q qe fc sortB efn scn
    rfl
  · intro qs embs out hmem
    simp only [specRetrieve] at hmem
    rcases List.mem_map.mp hmem with ⟨qv, hqv, rfl⟩
    have hperm := List.perm_insertionSort
      (fun i j => rankLeB (specScores qv embs) i j = true) (List.range embs.length)
    have htake : (List.insertionSort
        (fun i j => rankLeB (specScores qv embs) i j = true)
          (List.range embs.length)).take embs.length
        = List.insertionSort (fun i j => rankLeB (specScores qv embs) i j = true)
            (List.range embs.length) := by
      apply List.take_of_length_le
      rw [hperm.length_eq]
      simp
    dsimp only
    rw [htake]
    exact hperm

theorem c5_witness :
    (dcQuery env0 twoRowSt "emb" Val.vNull (some [[0]]) none none true none none
      = dcQuery env0 twoRowSt "emb" Val.vNull (some [[0]]) none
          (some twoRowSt.df.countRows) true none none) ∧
    (RetrievalOutput.mk [0, 1] [0, -100]).indices.Perm (List.range 2) :=
  ⟨c5_k_defaults_to_full_ranking.1 env0 twoRowSt "emb" Val.vNull (some [[0]]) none true none none,
   c5_k_defaults_to_full_ranking.2 [[0]] [[0], [10]] ⟨[0, 1], [0, -100]⟩ (by decide)⟩

theorem dcRetrieveCore_sorted (env : TEnv) (reg : Registry) (df : Df) (col : String)
    (q : List Val) (qe : Option (List (List Int))) (k : Nat) (efn : Option Transformation)
    (scn : Option String) (d : Df) (rg1 : Registry) (ws1 : List String)
    (h : dcRetrieveCore env reg df col q qe k true efn scn = (.ok d, rg1, ws1)) :
    ScoresDesc d (scn.getD (col ++ "_score")) := by
  unfold dcRetrieveCore at h
  rcases hs1 : dcRetrieveStep1 reg col efn with e | t3
  · rw [hs1] at h
    simp at h
  · rw [hs1] at h
    obtain ⟨tUsed, reg2, warns⟩ := t3
    simp only [] at h
    have h1 : dcRetrieveRest env tUsed df col q qe k true scn = .ok d := by
      have := congrArg Prod.fst h
      simpa using this
    exact dcRetrieveRest_sorted env tUsed df col q qe k scn d h1

/-- C6: a successful `query` call with filter conditions decomposes as
retrieval ranking first (`_retrieve` over the whole candidate table),
filter afterwards (`FilterHelper.filter` on the retrieved table, lines
273-274), and with the default sort toggle the resulting rows are ordered
by descending relevance score even after the filter. -/
theorem c6_filter_after_ranking_sorted (env : TEnv) (st : St) (col : String) (q : Val)
    (qe : Option (List (List Int))) (conds : Conds) (k : Option Nat)
    (efn : Option Transformation) (scn : Option String) (resr : Df) (rg : Registry)
    (ws : List String)
    (h : dcQuery env st col q qe (some conds) k true efn scn = (.ok resr, rg, ws)) :
    (∃ ranked,
      (dcRetrieveCore env st.reg st.df col [q] qe (k.getD st.df.countRows) true efn scn).1
        = .ok ranked ∧ filterDf ranked conds = .ok resr) ∧
    ScoresDesc resr (scn.getD (col ++ "_score")) := by
  simp only [dcQuery] at h
  rcases hco : dcRetrieveCore env st.reg st.df col [q] qe (k.getD st.df.countRows) true efn scn
    with ⟨ed, rg1, ws1⟩
  rw [hco] at h
  cases ed with
  | error e => simp at h
  | ok d =>
    simp only [] at h
    rcases hfd : filterDf d conds with e2 | d2
    · rw [hfd] at h
      simp at h
    · rw [hfd] at h
      simp only [Prod.mk.injEq] at h
      obtain ⟨hd, _, _⟩ := h
      have hd2 : d2 = resr := by
        injection hd
      subst hd2
      refine ⟨⟨d, rfl, hfd⟩, ?_⟩
      exact scoresDesc_filterDf (dcRetrieveCore_sorted env st.reg st.df col [q] qe
        (k.getD st.df.countRows) efn scn d rg1 ws1 hco) hfd

theorem c6_witness :
    (∃ ranked,
      (dcRetrieveCore env0 filterSt.reg filterSt.df "emb" [Val.vNull] (some [[6]])
          filterSt.df.countRows true none none).1
        = .ok ranked ∧ filterDf ranked [("n", [("eq", Val.vInt 0)])] = .ok c6res) ∧
    ScoresDesc c6res "emb_score" :=
  c6_filter_after_ranking_sorted env0 filterSt "emb" Val.vNull (some [[6]])
    [("n", [("eq", Val.vInt 0)])] none none none c6res [("emb", fT)] [] (by decide)

/-- C7 counterexample: on a registry holding `fT` for column `emb`, a
query supplying the different inline transformation `gT` does print the
warning and does not fail, but its result is the one the previously
registered `fT` computes and differs from the one the most recently
supplied `gT` computes — refuting the claim that execution
proceeds using the most recently supplied transformation. -/
theorem c7_counterexample :
    (dcQuery twoFnEnv twoRowSt "emb" (Val.vStr "q") none none (some 1) true (some gT) none).2.2
      = [warnMsg]
    ∧ (dcQuery twoFnEnv twoRowSt "emb" (Val.vStr "q") none none (some 1) true (some gT) none).1
      = (dcQuery twoFnEnv twoRowSt "emb" (Val.vStr "q") none none (some 1) true none none).1
    ∧ (dcQuery twoFnEnv twoRowSt "emb" (Val.vStr "q") none none (some 1) true (some gT) none).1
      ≠ (dcQuery twoFnEnv twoRowStG "emb" (Val.vStr "q") none none (some 1) true none none).1 := by
  decide

/-- C7 (amended): re-registering a differing transformation warns (logged,
not raised) and the operation proceeds; in `query`/`_retrieve` the
registry entry is left unchanged and the query is embedded with the
previously registered transformation, while in `embed` (with the update
flag, default true) the registry entry is replaced and execution uses the
most recently supplied transformation of the caller. -/
theorem c7_amended_warning_behavior :
    (∀ env reg df col q k sortB scn t g, regGet reg col = some t → ¬ t = g →
      dcRetrieveCore env reg df col q none k sortB (some g) scn
        = ((dcRetrieveCore env reg df col q none k sortB none scn).1, reg, [warnMsg])) ∧
    (∀ reg toName t g, regGet reg toName = some t → ¬ t = g →
      embStep reg toName (some g) true = .ok (regSet reg toName g, [warnMsg])) ∧
    (∀ reg toName g, regGet (regSet reg toName g) toName = some g) := by
  refine ⟨?_, ?_, regGet_regSet_self⟩
  · intro env reg df col q k sortB scn t g hreg hne
    simp [dcRetrieveCore, dcRetrieveStep1, hreg, hne]
  · intro reg toName t g hreg hne
    simp [embStep, hreg, hne]

theorem c7_amended_witness :
    dcRetrieveCore twoFnEnv [("emb", fT)] twoRowDf "emb" [Val.vStr "q"] none 1 true (some gT) none
      = ((dcRetrieveCore twoFnEnv [("emb", fT)] twoRowDf "emb" [Val.vStr "q"] none 1 true
            none none).1, [("emb", fT)], [warnMsg])
    ∧ embStep [("emb", fT)] "emb" (some gT) true = .ok (regSet [("emb", fT)] "emb" gT, [warnMsg])
    ∧ regGet (regSet [("emb", fT)] "emb" gT) "emb" = some gT :=
  ⟨c7_amended_warning_behavior.1 twoFnEnv [("emb", fT)] twoRowDf "emb" [Val.vStr "q"] 1 true
      none fT gT rfl (by decide),
   c7_amended_warning_behavior.2.1 [("emb", fT)] "emb" fT gT rfl (by decide),
   c7_amended_warning_behavior.2.2 [("emb", fT)] "emb" gT⟩

/-- C8 counterexample: `from_df` (lines 106-111) passes
`self.embedding_functions` itself into the derived collection, so
registering an embedding function on the derived collection changes the
registry of the original collection — refuting the claim that the registry of
the derived collection is not shared with the original. -/
theorem c8_counterexample :
    storeReg (setEmbeddingFunctionRef oneRegStore (fromDfRef baseRef ⟨["b"], []⟩) "x" fT)
        baseRef.regRef
      ≠ storeReg oneRegStore baseRef.regRef := by
  decide

/-- C8 (amended): a collection derived via `from_df` shares the registry
object by reference: registering through the derived collection rewrites
the registry of the original collection to the same updated dict. -/
theorem c8_registry_shared (s : Store) (c : DCRef) (df2 : Df) (col : String)
    (t : Transformation) (h : c.regRef < s.regs.length) :
    storeReg (setEmbeddingFunctionRef s (fromDfRef c df2) col t) c.regRef
      = regSet (storeReg s c.regRef) col t := by
  unfold setEmbeddingFunctionRef fromDfRef storeReg storeSet
  simp [List.getD_eq_getElem?_getD, List.getElem?_set_self, h]

theorem c8_witness :
    storeReg (setEmbeddingFunctionRef oneRegStore (fromDfRef baseRef ⟨["b"], []⟩) "y" gT)
        baseRef.regRef
      = regSet (storeReg oneRegStore baseRef.regRef) "y" gT :=
  c8_registry_shared oneRegStore baseRef ⟨["b"], []⟩ "y" gT (by decide)

/-- C9: evaluating `embed` with supplied content at a concrete input: the
content is added to the derived collection, but the argument list is built
from `self[column_name]` (line 370) — a selection on the original
collection, which lacks the new column — so the call fails with the
unknown-column error for the content column instead of producing the
collection carrying the `embeddings_b` column that the claim describes. -/
theorem c9_embed_content_fails :
    dcEmbed env0 embedSt "b" (some [Val.vStr "hello"]) none true none
      = (.error (Err.notFoundError "b"), [("embeddings_b", fT)], []) := by
  decide

/-- C10: an `apply` whose positional arguments contain no column reference
fails with the TypeError naming the column-reference requirement (the
ConfigurationError of the spec for an unresolved column reference, lines
307-310), and when a column reference is present first and `to` is
unspecified, the derived column name defaults to `tranformed_` followed by
the column name of the first argument (line 329). -/
theorem c10_apply_requires_column_ref :
    (∀ env st fn v rest to2, (∀ a ∈ ApplyArg.scalar v :: rest, ∃ w, a = ApplyArg.scalar w) →
      dcApply env st fn (ApplyArg.scalar v :: rest) to2 = .error (Err.typeError applyErrMsg)) ∧
    (∀ env st fn d n tl rest, d.cols = n :: tl →
      dcApply env st fn (ApplyArg.colRef d :: rest) none
        = dcApply env st fn (ApplyArg.colRef d :: rest) (some ("tranformed_" ++ n))) := by
  constructor
  · intro env st fn v rest to2 _
    rfl
  · intro env st fn d n tl rest h
    have hra : resolveAll (ApplyArg.colRef d :: rest)
        = match resolveAll rest with
          | .error e => .error e
          | .ok rs => .ok (.nameArg n :: rs) := by
      simp [resolveAll, resolveApplyArg, h]
    simp only [dcApply, hra]
    rcases hrest : resolveAll rest with e | rs <;> simp

theorem c10_witness :
    dcApply env0 emptyRegSt fT [ApplyArg.scalar (Val.vInt 1)] none
      = .error (Err.typeError applyErrMsg)
    ∧ dcApply env0 emptyRegSt fT [ApplyArg.colRef ⟨["emb"], []⟩] none
      = dcApply env0 emptyRegSt fT [ApplyArg.colRef ⟨["emb"], []⟩] (some ("tranformed_" ++ "emb")) :=
  ⟨c10_apply_requires_column_ref.1 env0 emptyRegSt fT (Val.vInt 1) [] none
      (fun a ha => ⟨Val.vInt 1, by simpa using ha⟩),
   c10_apply_requires_column_ref.2 env0 emptyRegSt fT ⟨["emb"], []⟩ "emb" [] [] rfl⟩

end Vexpresso
